import Mathlib

/-!
Shallow embedding of the Rust crate in src/src/lib.rs: a fixed-capacity
double-ended ring buffer RingBuffer<T, CAPACITY> with fields data (an array of
CAPACITY optional slots), front and back, and operations new, push, push_front,
pop, pop_front, get_front_ref, get_back_ref, get_front, get_back, is_empty,
is_full. The array is modelled as a list of options of length CAPACITY; usize
arithmetic is modelled by Nat (the quantities involved never exceed CAPACITY,
so no wraparound at the machine-word size can occur). Each definition below is
a direct transcription of the corresponding Rust function; checked variants
(suffix _checked) additionally return none exactly when the Rust code would
panic (an out-of-bounds index, or a modulo / subtraction on CAPACITY = 0).
-/

structure RingBuffer (T : Type) where
  data : List (Option T)
  front : Nat
  back : Nat
deriving DecidableEq

namespace RingBuffer

variable {T : Type}

/-- Rust new / Default::default: all slots None, front = back = 0. -/
def new (T : Type) (N : Nat) : RingBuffer T :=
  ⟨List.replicate N none, 0, 0⟩

/-- Rust is_empty: self.front == self.back. -/
def is_empty (s : RingBuffer T) : Bool :=
  s.front == s.back

/-- Rust is_full: (self.back + 1) % CAPACITY == self.front. -/
def is_full (N : Nat) (s : RingBuffer T) : Bool :=
  (s.back + 1) % N == s.front

/-- Rust push: if full return false; else back = (back + 1) % CAPACITY,
store Some(item) at the new back, return true. -/
def push (N : Nat) (x : T) (s : RingBuffer T) : Bool × RingBuffer T :=
  if is_full N s then (false, s)
  else
    let b := (s.back + 1) % N
    (true, ⟨s.data.set b (some x), s.front, b⟩)

/-- Rust push_front: if full return false; else front = if front == 0 then
CAPACITY - 1 else front - 1, store Some(item) at the new front, return true. -/
def push_front (N : Nat) (x : T) (s : RingBuffer T) : Bool × RingBuffer T :=
  if is_full N s then (false, s)
  else
    let f := if s.front == 0 then N - 1 else s.front - 1
    (true, ⟨s.data.set f (some x), f, s.back⟩)

/-- Rust pop: if empty return None; else take the value at back (leaving the
slot None), retreat back = if back == 0 then CAPACITY - 1 else back - 1,
return the taken value. -/
def pop (N : Nat) (s : RingBuffer T) : Option T × RingBuffer T :=
  if is_empty s then (none, s)
  else
    let item := s.data.getD s.back none
    let b := if s.back == 0 then N - 1 else s.back - 1
    (item, ⟨s.data.set s.back none, s.front, b⟩)

/-- Rust pop_front: if empty return None; else take the value at front
(leaving the slot None), advance front = (front + 1) % CAPACITY, return the
taken value. -/
def pop_front (N : Nat) (s : RingBuffer T) : Option T × RingBuffer T :=
  if is_empty s then (none, s)
  else
    let item := s.data.getD s.front none
    (item, ⟨s.data.set s.front none, (s.front + 1) % N, s.back⟩)

/-- Rust get_front_ref: the slot value at front (a non-mutating read). -/
def get_front_ref (s : RingBuffer T) : Option T :=
  s.data.getD s.front none

/-- Rust get_back_ref: the slot value at back (a non-mutating read). -/
def get_back_ref (s : RingBuffer T) : Option T :=
  s.data.getD s.back none

/-- Rust get_front (Copy variant): the slot value at front. -/
def get_front (s : RingBuffer T) : Option T :=
  s.data.getD s.front none

/-- Rust get_back (Copy variant): the slot value at back. -/
def get_back (s : RingBuffer T) : Option T :=
  s.data.getD s.back none

/-- Number of present (Some) slots: the true occupied-slot count. -/
def occupied_count (s : RingBuffer T) : Nat :=
  s.data.countP (fun o => o.isSome)

/-- Membership of index i in the circular range walked from f to b inclusive
in the increasing-index (mod N) direction. -/
def in_range (N f b i : Nat) : Bool :=
  (i + N - f) % N ≤ (b + N - f) % N

/-- Well-formedness: the slot array has length N and both cursors are in
range. -/
def WF (N : Nat) (s : RingBuffer T) : Prop :=
  s.data.length = N ∧ s.front < N ∧ s.back < N

instance (N : Nat) (s : RingBuffer T) : Decidable (WF N s) := by
  unfold WF; infer_instance

/-- States reachable from a freshly constructed buffer by the four mutating
operations. -/
inductive Reachable (T : Type) (N : Nat) : RingBuffer T → Prop
  | init : Reachable T N (new T N)
  | step_push (x : T) {s : RingBuffer T} :
      Reachable T N s → Reachable T N (push N x s).2
  | step_push_front (x : T) {s : RingBuffer T} :
      Reachable T N s → Reachable T N (push_front N x s).2
  | step_pop {s : RingBuffer T} :
      Reachable T N s → Reachable T N (pop N s).2
  | step_pop_front {s : RingBuffer T} :
      Reachable T N s → Reachable T N (pop_front N s).2

/-- Iterated push: pushes the elements of a list in order, collecting the
returned flags. -/
def push_all (N : Nat) : List T → RingBuffer T → List Bool × RingBuffer T
  | [], s => ([], s)
  | x :: xs, s =>
    let r := push N x s
    let rest := push_all N xs r.2
    (r.1 :: rest.1, rest.2)

/-- Iterated push_front, collecting the returned flags. -/
def push_front_all (N : Nat) : List T → RingBuffer T → List Bool × RingBuffer T
  | [], s => ([], s)
  | x :: xs, s =>
    let r := push_front N x s
    let rest := push_front_all N xs r.2
    (r.1 :: rest.1, rest.2)

/-- Iterated pop: pops k times, collecting the returned optional values. -/
def pop_all (N : Nat) : Nat → RingBuffer T → List (Option T) × RingBuffer T
  | 0, s => ([], s)
  | k + 1, s =>
    let r := pop N s
    let rest := pop_all N k r.2
    (r.1 :: rest.1, rest.2)

/-- Iterated pop_front: pops from the front k times, collecting the returned
optional values. -/
def pop_front_all (N : Nat) : Nat → RingBuffer T → List (Option T) × RingBuffer T
  | 0, s => ([], s)
  | k + 1, s =>
    let r := pop_front N s
    let rest := pop_front_all N k r.2
    (r.1 :: rest.1, rest.2)

/-! Checked variants: the same computations as the operations above, but
returning none exactly when the Rust code would panic — an out-of-bounds
slot index, or a modulo / subtraction involving CAPACITY = 0. The checks are
placed where the Rust code performs the corresponding operation. is_empty and
new never index or divide, so they have no checked variant. -/

def push_checked (N : Nat) (x : T) (s : RingBuffer T) :
    Option (Bool × RingBuffer T) :=
  if N = 0 then none
  else if is_full N s then some (false, s)
  else
    let b := (s.back + 1) % N
    if b < s.data.length then some (true, ⟨s.data.set b (some x), s.front, b⟩)
    else none

def push_front_checked (N : Nat) (x : T) (s : RingBuffer T) :
    Option (Bool × RingBuffer T) :=
  if N = 0 then none
  else if is_full N s then some (false, s)
  else
    let f := if s.front == 0 then N - 1 else s.front - 1
    if f < s.data.length then some (true, ⟨s.data.set f (some x), f, s.back⟩)
    else none

def pop_checked (N : Nat) (s : RingBuffer T) :
    Option (Option T × RingBuffer T) :=
  if is_empty s then some (none, s)
  else if s.back < s.data.length then
    if s.back == 0 then
      if N = 0 then none
      else some (s.data.getD s.back none,
        ⟨s.data.set s.back none, s.front, N - 1⟩)
    else some (s.data.getD s.back none,
      ⟨s.data.set s.back none, s.front, s.back - 1⟩)
  else none

def pop_front_checked (N : Nat) (s : RingBuffer T) :
    Option (Option T × RingBuffer T) :=
  if is_empty s then some (none, s)
  else if s.front < s.data.length then
    if N = 0 then none
    else some (s.data.getD s.front none,
      ⟨s.data.set s.front none, (s.front + 1) % N, s.back⟩)
  else none

def get_front_ref_checked (s : RingBuffer T) : Option (Option T) :=
  if s.front < s.data.length then some (s.data.getD s.front none) else none

def get_back_ref_checked (s : RingBuffer T) : Option (Option T) :=
  if s.back < s.data.length then some (s.data.getD s.back none) else none

def get_front_checked (s : RingBuffer T) : Option (Option T) :=
  if s.front < s.data.length then some (s.data.getD s.front none) else none

def get_back_checked (s : RingBuffer T) : Option (Option T) :=
  if s.back < s.data.length then some (s.data.getD s.back none) else none

def is_full_checked (N : Nat) (s : RingBuffer T) : Option Bool :=
  if N = 0 then none else some ((s.back + 1) % N == s.front)

/-- All operations on state s are panic-free and agree with the total
model, and both cursors are in range. -/
def NoPanic (N : Nat) (s : RingBuffer T) : Prop :=
  (∀ x : T, push_checked N x s = some (push N x s)) ∧
  (∀ x : T, push_front_checked N x s = some (push_front N x s)) ∧
  pop_checked N s = some (pop N s) ∧
  pop_front_checked N s = some (pop_front N s) ∧
  get_front_ref_checked s = some (get_front_ref s) ∧
  get_back_ref_checked s = some (get_back_ref s) ∧
  get_front_checked s = some (get_front s) ∧
  get_back_checked s = some (get_back s) ∧
  is_full_checked N s = some (is_full N s) ∧
  s.front < N ∧ s.back < N

/-- Closed form of the state reached from a fresh buffer of capacity N after
pushing the elements of ys in order via push, while fewer than N elements
have been pushed: back sits at index ys.length, the elements occupy indices
1..ys.length, and slot 0 (addressed by front) is the empty sentinel. -/
def after_pushes (N : Nat) (ys : List T) : RingBuffer T :=
  ⟨none :: (ys.map some ++ List.replicate (N - 1 - ys.length) none),
   0, ys.length⟩

/-- Closed form of the state reached from a fresh buffer of capacity N after
pushing the elements of ys in order via push_front, while fewer than N
elements have been pushed: front sits at index (N - ys.length) % N, the
elements occupy the top indices in reverse order, and back stays at 0. -/
def after_front_pushes (N : Nat) (ys : List T) : RingBuffer T :=
  ⟨List.replicate (N - ys.length) none ++ (ys.map some).reverse,
   (N - ys.length) % N, 0⟩

/-! Basic lemmas: behaviour of the four mutators on a full (push side) or
empty (pop side) buffer, read off directly from the early returns. -/

theorem push_of_full (N : Nat) (x : T) (s : RingBuffer T)
    (h : is_full N s = true) : push N x s = (false, s) := by
  simp [push, h]

theorem push_front_of_full (N : Nat) (x : T) (s : RingBuffer T)
    (h : is_full N s = true) : push_front N x s = (false, s) := by
  simp [push_front, h]

theorem pop_of_empty (N : Nat) (s : RingBuffer T)
    (h : is_empty s = true) : pop N s = (none, s) := by
  simp [pop, h]

theorem pop_front_of_empty (N : Nat) (s : RingBuffer T)
    (h : is_empty s = true) : pop_front N s = (none, s) := by
  simp [pop_front, h]

theorem is_empty_new (N : Nat) : is_empty (new T N) = true := by
  simp [is_empty, new]

theorem is_full_new_one : is_full 1 (new T 1) = true := by
  simp [is_full, new]

/-- Every state reachable with capacity 1 is the initial state: the fresh
buffer is simultaneously empty and full, so every mutator is a no-op. -/
theorem reachable_cap_one {s : RingBuffer T} (h : Reachable T 1 s) :
    s = new T 1 := by
  induction h with
  | init => rfl
  | step_push x hr ih =>
    rw [ih, push_of_full 1 x (new T 1) is_full_new_one]
  | step_push_front x hr ih =>
    rw [ih, push_front_of_full 1 x (new T 1) is_full_new_one]
  | step_pop hr ih =>
    rw [ih, pop_of_empty 1 (new T 1) (is_empty_new 1)]
  | step_pop_front hr ih =>
    rw [ih, pop_front_of_empty 1 (new T 1) (is_empty_new 1)]

/-! Well-formedness is established by new (for N at least 1) and preserved by
all four mutators, hence holds in every reachable state. -/

theorem wf_new {N : Nat} (h : 1 ≤ N) : WF N (new T N) :=
  ⟨by simp [new], h, h⟩

theorem wf_push (N : Nat) (x : T) {s : RingBuffer T} (h : WF N s) :
    WF N (push N x s).2 := by
  obtain ⟨hl, hf, hb⟩ := h
  cases hfull : is_full N s with
  | true =>
    simp [push, hfull]
    exact ⟨hl, hf, hb⟩
  | false =>
    simp [push, hfull, WF, hl]
    exact ⟨hf, Nat.mod_lt _ (by omega)⟩

theorem wf_push_front (N : Nat) (x : T) {s : RingBuffer T} (h : WF N s) :
    WF N (push_front N x s).2 := by
  obtain ⟨hl, hf, hb⟩ := h
  cases hfull : is_full N s with
  | true =>
    simp [push_front, hfull]
    exact ⟨hl, hf, hb⟩
  | false =>
    simp [push_front, hfull, WF, hl]
    refine ⟨?_, hb⟩
    split <;> omega

theorem wf_pop (N : Nat) {s : RingBuffer T} (h : WF N s) :
    WF N (pop N s).2 := by
  obtain ⟨hl, hf, hb⟩ := h
  cases hemp : is_empty s with
  | true =>
    simp [pop, hemp]
    exact ⟨hl, hf, hb⟩
  | false =>
    simp [pop, hemp, WF, hl]
    refine ⟨hf, ?_⟩
    split <;> omega

theorem wf_pop_front (N : Nat) {s : RingBuffer T} (h : WF N s) :
    WF N (pop_front N s).2 := by
  obtain ⟨hl, hf, hb⟩ := h
  cases hemp : is_empty s with
  | true =>
    simp [pop_front, hemp]
    exact ⟨hl, hf, hb⟩
  | false =>
    simp [pop_front, hemp, WF, hl]
    exact ⟨Nat.mod_lt _ (by omega), hb⟩

theorem reachable_wf {N : Nat} (hN : 1 ≤ N) {s : RingBuffer T}
    (h : Reachable T N s) : WF N s := by
  induction h with
  | init => exact wf_new hN
  | step_push x hr ih => exact wf_push N x ih
  | step_push_front x hr ih => exact wf_push_front N x ih
  | step_pop hr ih => exact wf_pop N ih
  | step_pop_front hr ih => exact wf_pop_front N ih

/-! On well-formed states every checked operation succeeds and agrees with
the total model: no access is out of bounds and no arithmetic degenerates. -/

theorem push_checked_eq (N : Nat) (x : T) {s : RingBuffer T} (h : WF N s) :
    push_checked N x s = some (push N x s) := by
  obtain ⟨hl, hf, hb⟩ := h
  have hN : N ≠ 0 := by omega
  cases hfull : is_full N s with
  | true => simp [push_checked, push, hN, hfull]
  | false =>
    have hlt : (s.back + 1) % N < s.data.length := by
      rw [hl]; exact Nat.mod_lt _ (by omega)
    simp [push_checked, push, hN, hfull, hlt]

theorem push_front_checked_eq (N : Nat) (x : T) {s : RingBuffer T}
    (h : WF N s) : push_front_checked N x s = some (push_front N x s) := by
  obtain ⟨hl, hf, hb⟩ := h
  have hN : N ≠ 0 := by omega
  cases hfull : is_full N s with
  | true => simp [push_front_checked, push_front, hN, hfull]
  | false =>
    have hlt : (if s.front = 0 then N - 1 else s.front - 1) < s.data.length := by
      rw [hl]; split <;> omega
    simp [push_front_checked, push_front, hN, hfull, hlt]

theorem pop_checked_eq (N : Nat) {s : RingBuffer T} (h : WF N s) :
    pop_checked N s = some (pop N s) := by
  obtain ⟨hl, hf, hb⟩ := h
  have hN : N ≠ 0 := by omega
  have hlt : s.back < s.data.length := by omega
  cases hemp : is_empty s with
  | true => simp [pop_checked, pop, hemp]
  | false =>
    cases h0 : s.back == 0 with
    | true => simp [pop_checked, pop, hemp, hlt, h0, hN]
    | false => simp [pop_checked, pop, hemp, hlt, h0]

theorem pop_front_checked_eq (N : Nat) {s : RingBuffer T} (h : WF N s) :
    pop_front_checked N s = some (pop_front N s) := by
  obtain ⟨hl, hf, hb⟩ := h
  have hN : N ≠ 0 := by omega
  have hlt : s.front < s.data.length := by omega
  cases hemp : is_empty s with
  | true => simp [pop_front_checked, pop_front, hemp]
  | false => simp [pop_front_checked, pop_front, hemp, hlt, hN]

theorem get_front_ref_checked_eq {N : Nat} {s : RingBuffer T} (h : WF N s) :
    get_front_ref_checked s = some (get_front_ref s) := by
  obtain ⟨hl, hf, hb⟩ := h
  have hlt : s.front < s.data.length := by omega
  simp [get_front_ref_checked, get_front_ref, hlt]

theorem get_back_ref_checked_eq {N : Nat} {s : RingBuffer T} (h : WF N s) :
    get_back_ref_checked s = some (get_back_ref s) := by
  obtain ⟨hl, hf, hb⟩ := h
  have hlt : s.back < s.data.length := by omega
  simp [get_back_ref_checked, get_back_ref, hlt]

theorem get_front_checked_eq {N : Nat} {s : RingBuffer T} (h : WF N s) :
    get_front_checked s = some (get_front s) := by
  obtain ⟨hl, hf, hb⟩ := h
  have hlt : s.front < s.data.length := by omega
  simp [get_front_checked, get_front, hlt]

theorem get_back_checked_eq {N : Nat} {s : RingBuffer T} (h : WF N s) :
    get_back_checked s = some (get_back s) := by
  obtain ⟨hl, hf, hb⟩ := h
  have hlt : s.back < s.data.length := by omega
  simp [get_back_checked, get_back, hlt]

theorem is_full_checked_eq (N : Nat) {s : RingBuffer T} (hN : N ≠ 0) :
    is_full_checked N s = some (is_full N s) := by
  simp [is_full_checked, is_full, hN]

/-- C9: no-panic totality. For every capacity N at least 1 and every state
reachable from a freshly constructed buffer, both cursors satisfy front < N
and back < N, and every operation (push, push_front, pop, pop_front,
get_front_ref, get_back_ref, get_front, get_back, is_full) is panic-free:
its checked variant, which returns none exactly where the Rust code would
panic on an out-of-bounds index or a degenerate modulo / subtraction,
succeeds and agrees with the total model. new and is_empty perform no
indexing or division and are total by construction. -/
theorem no_panic_reachable {N : Nat} (hN : 1 ≤ N) {s : RingBuffer T}
    (h : Reachable T N s) : NoPanic N s := by
  have hw := reachable_wf hN h
  refine ⟨fun x => push_checked_eq N x hw, fun x => push_front_checked_eq N x hw,
    pop_checked_eq N hw, pop_front_checked_eq N hw,
    get_front_ref_checked_eq hw, get_back_ref_checked_eq hw,
    get_front_checked_eq hw, get_back_checked_eq hw,
    is_full_checked_eq N (by omega), hw.2.1, hw.2.2⟩

/-- Witness for C9 at the fresh capacity-2 buffer over Nat. -/
theorem no_panic_reachable_witness : NoPanic 2 (new Nat 2) :=
  no_panic_reachable (by decide) Reachable.init

/-- C8: failure atomicity. In any state (reachable or not), if the buffer is
full then push and push_front return false and leave front, back and every
slot unchanged; if it is empty then pop and pop_front return an absent value
and leave front, back and every slot unchanged. -/
theorem failure_atomicity (N : Nat) (x : T) (s : RingBuffer T) :
    (is_full N s = true →
      push N x s = (false, s) ∧ push_front N x s = (false, s)) ∧
    (is_empty s = true →
      pop N s = (none, s) ∧ pop_front N s = (none, s)) :=
  ⟨fun h => ⟨push_of_full N x s h, push_front_of_full N x s h⟩,
   fun h => ⟨pop_of_empty N s h, pop_front_of_empty N s h⟩⟩

/-- Witness for C8 at the concrete state new Nat 1, which is both full and
empty. -/
theorem failure_atomicity_witness :
    (push 1 0 (new Nat 1) = (false, new Nat 1) ∧
      push_front 1 0 (new Nat 1) = (false, new Nat 1)) ∧
    (pop 1 (new Nat 1) = (none, new Nat 1) ∧
      pop_front 1 (new Nat 1) = (none, new Nat 1)) :=
  ⟨(failure_atomicity 1 0 (new Nat 1)).1 (by decide),
   (failure_atomicity 1 0 (new Nat 1)).2 (by decide)⟩

/-- C10: capacity-1 degenerate buffer. With N = 1 every reachable state is
the fresh state, which reports empty and full at once; push and push_front
always return false, pop and pop_front always return an absent value, and no
operation changes the state, so the buffer stays degenerate forever. -/
theorem capacity_one_degenerate (s : RingBuffer T) (h : Reachable T 1 s)
    (x : T) :
    s = new T 1 ∧ is_empty s = true ∧ is_full 1 s = true ∧
    push 1 x s = (false, s) ∧ push_front 1 x s = (false, s) ∧
    pop 1 s = (none, s) ∧ pop_front 1 s = (none, s) := by
  have e := reachable_cap_one h
  subst e
  exact ⟨rfl, is_empty_new 1, is_full_new_one,
    push_of_full 1 x _ is_full_new_one,
    push_front_of_full 1 x _ is_full_new_one,
    pop_of_empty 1 _ (is_empty_new 1),
    pop_front_of_empty 1 _ (is_empty_new 1)⟩

/-- Witness for C10 at the fresh capacity-1 buffer over Nat. -/
theorem capacity_one_degenerate_witness :
    new Nat 1 = new Nat 1 ∧ is_empty (new Nat 1) = true ∧
    is_full 1 (new Nat 1) = true ∧
    push 1 5 (new Nat 1) = (false, new Nat 1) ∧
    push_front 1 5 (new Nat 1) = (false, new Nat 1) ∧
    pop 1 (new Nat 1) = (none, new Nat 1) ∧
    pop_front 1 (new Nat 1) = (none, new Nat 1) :=
  capacity_one_degenerate (new Nat 1) Reachable.init 5

/-- C1: FIFO across ends fails on the code. With capacity 3, pushing the
single element 1 via push succeeds, yet the first pop_front returns none
rather than some 1: push stores the element at back = 1 while front still
addresses the empty sentinel slot 0, which pop_front reads. -/
theorem fifo_pop_front_returns_none :
    Reachable Nat 3 (push 3 1 (new Nat 3)).2 ∧
    (push 3 1 (new Nat 3)).1 = true ∧
    (pop_front 3 (push 3 1 (new Nat 3)).2).1 = none :=
  ⟨Reachable.step_push 1 Reachable.init, by decide, by decide⟩

/-- C2: the occupied-region invariant fails on the code. With capacity 3,
after pushing 1 into a fresh buffer the state is reachable and non-empty,
index 0 lies in the circular range from front = 0 to back = 1, yet slot 0 is
absent. -/
theorem occupied_region_invariant_fails :
    Reachable Nat 3 (push 3 1 (new Nat 3)).2 ∧
    is_empty (push 3 1 (new Nat 3)).2 = false ∧
    (push 3 1 (new Nat 3)).2.front = 0 ∧
    (push 3 1 (new Nat 3)).2.back = 1 ∧
    in_range 3 0 1 0 = true ∧
    (push 3 1 (new Nat 3)).2.data.getD 0 none = none :=
  ⟨Reachable.step_push 1 Reachable.init,
   by decide, by decide, by decide, by decide, by decide⟩

/-- C3: cursor/count consistency fails on the code. With capacity 3, the
reachable state after push 1 followed by pop_front reports is_empty = true
while one slot still holds a present value (the pushed element is stranded at
index 1). -/
theorem cursor_count_mismatch :
    Reachable Nat 3 (pop_front 3 (push 3 1 (new Nat 3)).2).2 ∧
    is_empty (pop_front 3 (push 3 1 (new Nat 3)).2).2 = true ∧
    occupied_count (pop_front 3 (push 3 1 (new Nat 3)).2).2 = 1 :=
  ⟨Reachable.step_pop_front (Reachable.step_push 1 Reachable.init),
   by decide, by decide⟩

/-- C4: peek correctness fails on the code. With capacity 3, after push 5
into a fresh buffer the buffer is non-empty and its unique (hence front-most)
element is 5 (pop returns it), yet get_front_ref and get_front return none;
symmetrically after push_front 7 the unique (hence back-most) element is 7
(pop_front returns it), yet get_back_ref and get_back return none. -/
theorem peek_returns_none_on_nonempty :
    Reachable Nat 3 (push 3 5 (new Nat 3)).2 ∧
    is_empty (push 3 5 (new Nat 3)).2 = false ∧
    (pop 3 (push 3 5 (new Nat 3)).2).1 = some 5 ∧
    get_front_ref (push 3 5 (new Nat 3)).2 = none ∧
    get_front (push 3 5 (new Nat 3)).2 = none ∧
    is_empty (push_front 3 7 (new Nat 3)).2 = false ∧
    (pop_front 3 (push_front 3 7 (new Nat 3)).2).1 = some 7 ∧
    get_back_ref (push_front 3 7 (new Nat 3)).2 = none ∧
    get_back (push_front 3 7 (new Nat 3)).2 = none :=
  ⟨Reachable.step_push 5 Reachable.init, by decide, by decide, by decide,
   by decide, by decide, by decide, by decide, by decide⟩

/-- Counterexample for C6 as stated: with capacity N = 1 the fresh buffer is
a reachable empty buffer, yet push 42 returns false and the following pop
returns none (not some 42); likewise for push_front and pop_front. -/
theorem push_pop_duality_fails_at_cap_one :
    Reachable Nat 1 (new Nat 1) ∧ is_empty (new Nat 1) = true ∧
    (push 1 42 (new Nat 1)).1 = false ∧
    (pop 1 (push 1 42 (new Nat 1)).2).1 = none ∧
    (push_front 1 42 (new Nat 1)).1 = false ∧
    (pop_front 1 (push_front 1 42 (new Nat 1)).2).1 = none :=
  ⟨Reachable.init, by decide, by decide, by decide, by decide, by decide⟩

/-! Characterization of states reached by uninterrupted push (resp.
push_front) sequences from a fresh buffer, and of the pops that drain them. -/

theorem set_replicate_last {α : Type _} (m : Nat) (a v : α) :
    (List.replicate (m + 1) a).set m v = List.replicate m a ++ [v] := by
  induction m with
  | zero => simp
  | succ m ih =>
    rw [List.replicate_succ, List.set_cons_succ, ih, List.replicate_succ,
      List.cons_append]

theorem push_step (N : Nat) (x : T) (ys : List T) (h : ys.length + 2 ≤ N) :
    push N x (after_pushes N ys) = (true, after_pushes N (ys ++ [x])) := by
  have h1 : (ys.length + 1) % N = ys.length + 1 := Nat.mod_eq_of_lt (by omega)
  have h2 : N - 1 - ys.length = (N - 1 - (ys.length + 1)) + 1 := by omega
  simp [push, is_full, after_pushes, h1, h2, List.replicate_succ,
    List.set_append_right]

theorem pop_step (N : Nat) (x : T) (ys : List T) (h : ys.length + 2 ≤ N) :
    pop N (after_pushes N (ys ++ [x])) = (some x, after_pushes N ys) := by
  have h2 : N - 1 - ys.length = (N - 1 - (ys.length + 1)) + 1 := by omega
  simp [pop, is_empty, after_pushes, h2, List.replicate_succ,
    List.set_append_right, List.getD_eq_getElem?_getD,
    List.getElem?_append_right, List.getElem_append_right]

theorem push_front_step (N : Nat) (x : T) (ys : List T)
    (h : ys.length + 2 ≤ N) :
    push_front N x (after_front_pushes N ys) =
      (true, after_front_pushes N (ys ++ [x])) := by
  obtain ⟨m, rfl⟩ : ∃ m, N = ys.length + m + 2 := ⟨N - ys.length - 2, by omega⟩
  rcases Nat.eq_zero_or_pos ys.length with h0 | h0
  · have hy : ys = [] := List.eq_nil_of_length_eq_zero h0
    subst hy
    have e1 : 0 + m + 2 - ([] : List T).length = m + 2 := by simp
    have e2 : (1 : Nat) % (0 + m + 2) = 1 := Nat.mod_eq_of_lt (by omega)
    have e3 : (0 + m + 2) % (0 + m + 2) = 0 := Nat.mod_self _
    have e4 : (m + 1) % (0 + m + 2) = m + 1 := Nat.mod_eq_of_lt (by omega)
    have e5 : 0 + m + 2 - (([] : List T) ++ [x]).length = m + 1 := by simp
    have e6 : 0 + m + 2 - 1 = m + 1 := by omega
    simp [push_front, is_full, after_front_pushes, e1, e2, e3, e4, e5, e6,
      set_replicate_last]
  · have e1 : ys.length + m + 2 - ys.length = m + 2 := by omega
    have e2 : (1 : Nat) % (ys.length + m + 2) = 1 := Nat.mod_eq_of_lt (by omega)
    have e3 : (m + 2) % (ys.length + m + 2) = m + 2 :=
      Nat.mod_eq_of_lt (by omega)
    have e4 : (m + 1) % (ys.length + m + 2) = m + 1 :=
      Nat.mod_eq_of_lt (by omega)
    have e5 : ys.length + m + 2 - (ys ++ [x]).length = m + 1 := by
      simp; omega
    have e7 : ys.length + m + 1 - ys.length = m + 1 := by omega
    simp [push_front, is_full, after_front_pushes, e1, e2, e3, e4, e5, e7,
      List.set_append_left, set_replicate_last]

theorem new_eq_after_pushes {N : Nat} (h : 1 ≤ N) :
    new T N = after_pushes N ([] : List T) := by
  have hrep : List.replicate N (none : Option T) =
      none :: List.replicate (N - 1) none := by
    nth_rewrite 1 [show N = (N - 1) + 1 from by omega]
    rw [List.replicate_succ]
  simp [new, after_pushes, hrep]

theorem new_eq_after_front_pushes {N : Nat} (h : 1 ≤ N) :
    new T N = after_front_pushes N ([] : List T) := by
  simp [new, after_front_pushes, Nat.mod_self]

theorem push_all_after (N : Nat) (xs ys : List T)
    (h : ys.length + xs.length + 1 ≤ N) :
    push_all N xs (after_pushes N ys) =
      (List.replicate xs.length true, after_pushes N (ys ++ xs)) := by
  induction xs generalizing ys with
  | nil => simp [push_all]
  | cons x xs ih =>
    have hstep := push_step N x ys (by simp at h; omega)
    have hih := ih (ys ++ [x]) (by simp at h ⊢; omega)
    simp [push_all, hstep, hih, List.replicate_succ]

theorem push_front_all_after (N : Nat) (xs ys : List T)
    (h : ys.length + xs.length + 1 ≤ N) :
    push_front_all N xs (after_front_pushes N ys) =
      (List.replicate xs.length true, after_front_pushes N (ys ++ xs)) := by
  induction xs generalizing ys with
  | nil => simp [push_front_all]
  | cons x xs ih =>
    have hstep := push_front_step N x ys (by simp at h; omega)
    have hih := ih (ys ++ [x]) (by simp at h ⊢; omega)
    simp [push_front_all, hstep, hih, List.replicate_succ]

theorem pop_all_after (N : Nat) (xs : List T) (h : xs.length + 1 ≤ N) :
    pop_all N xs.length (after_pushes N xs) =
      ((xs.map some).reverse, after_pushes N ([] : List T)) := by
  induction xs using List.reverseRecOn with
  | nil => simp [pop_all]
  | append_singleton ys x ih =>
    have hstep := pop_step N x ys (by simp at h; omega)
    have hih := ih (by simp at h ⊢; omega)
    simp [pop_all, hstep, hih]

theorem is_full_after_pushes (N : Nat) (xs : List T) (hN : 1 ≤ N)
    (h : xs.length = N - 1) : is_full N (after_pushes N xs) = true := by
  simp [is_full, after_pushes, h]
  rw [show N - 1 + 1 = N from by omega]
  simp [Nat.mod_self]

theorem is_full_after_front_pushes (N : Nat) (xs : List T) (hN : 1 ≤ N)
    (h : xs.length = N - 1) : is_full N (after_front_pushes N xs) = true := by
  simp [is_full, after_front_pushes, h]
  rw [show N - (N - 1) = 1 from by omega]

/-- C7: LIFO at the back. Pushing the elements of xs (with 1 ≤ xs.length < N)
via push into a fresh buffer of capacity N and then calling pop xs.length
times returns the pushed elements in reverse order, each wrapped in some. -/
theorem lifo_back (N : Nat) (xs : List T) (h1 : 1 ≤ xs.length)
    (h2 : xs.length < N) :
    (pop_all N xs.length (push_all N xs (new T N)).2).1 =
      (xs.map some).reverse := by
  have hN : 1 ≤ N := by omega
  rw [new_eq_after_pushes hN]
  have hp := push_all_after N xs [] (by simp; omega)
  rw [hp]
  simp only [List.nil_append]
  rw [pop_all_after N xs (by omega)]

/-- Witness for C7 with capacity 3 and the two pushed elements 10, 20: the
two pops return some 20 then some 10. -/
theorem lifo_back_witness :
    1 ≤ ([10, 20] : List Nat).length ∧ ([10, 20] : List Nat).length < 3 ∧
    (pop_all 3 ([10, 20] : List Nat).length
        (push_all 3 [10, 20] (new Nat 3)).2).1 =
      (([10, 20] : List Nat).map some).reverse :=
  ⟨by decide, by decide, lifo_back 3 [10, 20] (by decide) (by decide)⟩

/-- C5: push-until-full. For every capacity N ≥ 1, pushing N - 1 elements
into a fresh buffer all via push (or all via push_front) succeeds every time,
the buffer then reports full, and a further push attempt on either end
returns false and leaves the state (cursors and every slot) unchanged. -/
theorem push_until_full (N : Nat) (xs : List T) (y : T) (h1 : 1 ≤ N)
    (h2 : xs.length = N - 1) :
    (push_all N xs (new T N)).1 = List.replicate (N - 1) true ∧
    is_full N (push_all N xs (new T N)).2 = true ∧
    push N y (push_all N xs (new T N)).2 =
      (false, (push_all N xs (new T N)).2) ∧
    push_front N y (push_all N xs (new T N)).2 =
      (false, (push_all N xs (new T N)).2) ∧
    (push_front_all N xs (new T N)).1 = List.replicate (N - 1) true ∧
    is_full N (push_front_all N xs (new T N)).2 = true ∧
    push N y (push_front_all N xs (new T N)).2 =
      (false, (push_front_all N xs (new T N)).2) ∧
    push_front N y (push_front_all N xs (new T N)).2 =
      (false, (push_front_all N xs (new T N)).2) := by
  have e1 : push_all N xs (new T N) =
      (List.replicate (N - 1) true, after_pushes N xs) := by
    rw [new_eq_after_pushes h1, push_all_after N xs [] (by simp; omega)]
    simp [h2]
  have e2 : push_front_all N xs (new T N) =
      (List.replicate (N - 1) true, after_front_pushes N xs) := by
    rw [new_eq_after_front_pushes h1, push_front_all_after N xs [] (by simp; omega)]
    simp [h2]
  have f1 : is_full N (push_all N xs (new T N)).2 = true := by
    rw [e1]; exact is_full_after_pushes N xs h1 h2
  have f2 : is_full N (push_front_all N xs (new T N)).2 = true := by
    rw [e2]; exact is_full_after_front_pushes N xs h1 h2
  exact ⟨by rw [e1], f1, push_of_full N y _ f1, push_front_of_full N y _ f1,
    by rw [e2], f2, push_of_full N y _ f2, push_front_of_full N y _ f2⟩

/-- Witness for C5, the concrete capacity-boundary scenario of the spec:
N = 10, pushing 1..9 succeeds nine times, the buffer is then full, and a
tenth push on either end fails without changing the state. -/
theorem push_until_full_witness :
    (push_all 10 [1, 2, 3, 4, 5, 6, 7, 8, 9] (new Nat 10)).1 =
      List.replicate 9 true ∧
    is_full 10 (push_all 10 [1, 2, 3, 4, 5, 6, 7, 8, 9] (new Nat 10)).2 = true ∧
    push 10 10 (push_all 10 [1, 2, 3, 4, 5, 6, 7, 8, 9] (new Nat 10)).2 =
      (false, (push_all 10 [1, 2, 3, 4, 5, 6, 7, 8, 9] (new Nat 10)).2) ∧
    push_front 10 10 (push_all 10 [1, 2, 3, 4, 5, 6, 7, 8, 9] (new Nat 10)).2 =
      (false, (push_all 10 [1, 2, 3, 4, 5, 6, 7, 8, 9] (new Nat 10)).2) ∧
    (push_front_all 10 [1, 2, 3, 4, 5, 6, 7, 8, 9] (new Nat 10)).1 =
      List.replicate 9 true ∧
    is_full 10 (push_front_all 10 [1, 2, 3, 4, 5, 6, 7, 8, 9] (new Nat 10)).2 = true ∧
    push 10 10 (push_front_all 10 [1, 2, 3, 4, 5, 6, 7, 8, 9] (new Nat 10)).2 =
      (false, (push_front_all 10 [1, 2, 3, 4, 5, 6, 7, 8, 9] (new Nat 10)).2) ∧
    push_front 10 10 (push_front_all 10 [1, 2, 3, 4, 5, 6, 7, 8, 9] (new Nat 10)).2 =
      (false, (push_front_all 10 [1, 2, 3, 4, 5, 6, 7, 8, 9] (new Nat 10)).2) :=
  push_until_full 10 [1, 2, 3, 4, 5, 6, 7, 8, 9] 10 (by decide) (by decide)

theorem succ_mod_ne_self {N b : Nat} (hN : 2 ≤ N) (hb : b < N) :
    (b + 1) % N ≠ b := by
  rcases Nat.lt_or_ge (b + 1) N with hlt | hge
  · rw [Nat.mod_eq_of_lt hlt]; omega
  · rw [show b + 1 = N from by omega, Nat.mod_self]; omega

/-- C6 (amended): same-end push/pop round trips on every well-formed empty
buffer of capacity N ≥ 2 (for N = 1 an empty buffer is simultaneously full,
both pushes fail and both pops return none — see the counterexample): push x
followed by pop returns some x and restores emptiness, and push_front x
followed by pop_front returns some x and restores emptiness. Well-formedness
holds in every reachable state, so this covers every reachable empty
buffer. -/
theorem push_pop_duality (N : Nat) (x : T) (s : RingBuffer T) (hN : 2 ≤ N)
    (hw : WF N s) (he : is_empty s = true) :
    (push N x s).1 = true ∧
    (pop N (push N x s).2).1 = some x ∧
    is_empty (pop N (push N x s).2).2 = true ∧
    (push_front N x s).1 = true ∧
    (pop_front N (push_front N x s).2).1 = some x ∧
    is_empty (pop_front N (push_front N x s).2).2 = true := by
  obtain ⟨d, f0, b0⟩ := s
  obtain ⟨hl, hf, hb⟩ := hw
  simp only [] at hl hf hb
  have hfb : f0 = b0 := by simpa [is_empty] using he
  subst hfb
  have hne := succ_mod_ne_self hN hf
  have hnf : is_full N (⟨d, f0, f0⟩ : RingBuffer T) = false := by
    simp [is_full]
    exact hne
  have hlt1 : (f0 + 1) % N < d.length := by
    have := Nat.mod_lt (f0 + 1) (show 0 < N from by omega)
    omega
  have hback : (if (f0 + 1) % N = 0 then N - 1 else (f0 + 1) % N - 1) = f0 := by
    rcases Nat.lt_or_ge (f0 + 1) N with hlt | hge
    · rw [Nat.mod_eq_of_lt hlt]; split <;> omega
    · rw [show f0 + 1 = N from by omega, Nat.mod_self]; split <;> omega
  have hf1 : (if f0 = 0 then N - 1 else f0 - 1) ≠ f0 := by split <;> omega
  have hlt2 : (if f0 = 0 then N - 1 else f0 - 1) < d.length := by split <;> omega
  have hret : ((if f0 = 0 then N - 1 else f0 - 1) + 1) % N = f0 := by
    split
    · rw [show N - 1 + 1 = N from by omega, Nat.mod_self]; omega
    · rw [show f0 - 1 + 1 = f0 from by omega]; exact Nat.mod_eq_of_lt hf
  refine ⟨by simp [push, hnf], ?_, ?_, by simp [push_front, hnf], ?_, ?_⟩
  · simp [push, hnf, pop, is_empty, hne, Ne.symm hne, List.getD_eq_getElem?_getD,
      List.getElem?_set_self hlt1]
  · simp [push, hnf, pop, is_empty, hne, Ne.symm hne, hback]
  · simp [push_front, hnf, pop_front, is_empty, hf1, Ne.symm hf1,
      List.getD_eq_getElem?_getD, List.getElem?_set_self hlt2]
  · simp [push_front, hnf, pop_front, is_empty, hf1, Ne.symm hf1, hret]

/-- Witness for the amended C6 at the fresh capacity-2 buffer over Nat with
x = 5. -/
theorem push_pop_duality_witness :
    (push 2 5 (new Nat 2)).1 = true ∧
    (pop 2 (push 2 5 (new Nat 2)).2).1 = some 5 ∧
    is_empty (pop 2 (push 2 5 (new Nat 2)).2).2 = true ∧
    (push_front 2 5 (new Nat 2)).1 = true ∧
    (pop_front 2 (push_front 2 5 (new Nat 2)).2).1 = some 5 ∧
    is_empty (pop_front 2 (push_front 2 5 (new Nat 2)).2).2 = true :=
  push_pop_duality 2 5 (new Nat 2) (by decide) (by decide) (by decide)

end RingBuffer
